import Mathlib

/-!
Shallow embedding of the dbarts BART sampler core (bartFit.cpp,
endNodeModel.cpp, R_interface.cpp, tree sources) in Lean 4, together with
theorems settling the frozen claims about it.

Machine doubles are modelled as rationals: the operations the claims are
about only copy, compare, add, subtract, multiply and divide values, so
exact rational arithmetic mirrors them faithfully.  The transcendental
`std::log` called by the integrated-likelihood code is an external
collaborator and is passed in as an abstract function argument.
-/

namespace Dbarts

/-! ## Cut-point machinery (`setCutPointsFromQuantiles`, `setCutPointsUniformly`
    from bartFit.cpp lines 692-754) -/

/-- Insert a value into a sorted list, keeping it sorted (ascending). -/
def insertSorted (x : ℚ) : List ℚ → List ℚ
  | [] => [x]
  | y :: ys => if x ≤ y then x :: y :: ys else y :: insertSorted x ys

/-- The sorted distinct elements of a column, as collected by the source's
`std::set<double> uniqueElements` followed by `sortedElements.assign`. -/
def sortedUniqueElements (xs : List ℚ) : List ℚ :=
  xs.foldl (fun acc x => if x ∈ acc then acc else insertSorted x acc) []

/-- The quantile-mode quantities the source computes before writing cut
points: `(numCuts, step, offset, sortedElements)`.  Mirrors the branch on
`numUniqueElements <= maxNumCuts + 1` in `setCutPointsFromQuantiles`. -/
def quantileCutData (x : List ℚ) (maxNumCuts : ℕ) : ℕ × ℕ × ℕ × List ℚ :=
  let sortedElements := sortedUniqueElements x
  let numUniqueElements := sortedElements.length
  if numUniqueElements ≤ maxNumCuts + 1 then
    (numUniqueElements - 1, 1, 0, sortedElements)
  else
    (maxNumCuts, maxNumCuts / numUniqueElements, (maxNumCuts / numUniqueElements) / 2, sortedElements)

/-- The index of the sorted distinct value used for the i-th cut point:
`min(i * step + offset, numUniqueElements - 2)` in integer arithmetic. -/
def quantileCutIndex (numUniqueElements step offset i : ℕ) : ℕ :=
  min (i * step + offset) (numUniqueElements - 2)

/-- The list of `count` cut points: `0.5 * (v[index] + v[index + 1])`
over the sorted distinct values. -/
def quantileCutList (sortedElements : List ℚ) (count step offset : ℕ) : List ℚ :=
  (List.range count).map fun i =>
    let index := quantileCutIndex sortedElements.length step offset i
    (1 / 2 : ℚ) * (sortedElements.getD index 0 + sortedElements.getD (index + 1) 0)

/-- Result of a cut-point computation: the count written to
`numCutsPerVariable` and the values written to `cutPoints`. -/
structure CutPointsResult where
  numCuts : ℕ
  cutPoints : List ℚ
deriving DecidableEq

/-- `setCutPointsFromQuantiles` (bartFit.cpp lines 692-730).  `prev` is
`none` for the initial install (the `numCutsPerVariable == -1` sentinel) and
`some previousNumCuts` for a replacement; on replacement a smaller induced
count is the source's `ext_throwError` (a fatal error), a larger one only
warns and writes the first `previousNumCuts` cut points. -/
def setCutPointsFromQuantiles (x : List ℚ) (maxNumCuts : ℕ) (prev : Option ℕ) :
    Except String CutPointsResult :=
  let (numCuts, step, offset, sortedElements) := quantileCutData x maxNumCuts
  match prev with
  | none => Except.ok ⟨numCuts, quantileCutList sortedElements numCuts step offset⟩
  | some previousNumCuts =>
    if numCuts < previousNumCuts then
      Except.error ("Number of induced cut points in new predictor less than previous")
    else
      Except.ok ⟨previousNumCuts, quantileCutList sortedElements previousNumCuts step offset⟩

/-- `setCutPointsUniformly` (bartFit.cpp lines 732-754).  On a replacement
(`prev = some c`) the existing count is kept; only a fresh install reads
`maxNumCuts`.  The uniform rule never raises an error. -/
def setCutPointsUniformly (x : List ℚ) (maxNumCuts : ℕ) (prev : Option ℕ) :
    CutPointsResult :=
  let xMin := x.foldl min (x.headD 0)
  let xMax := x.foldl max (x.headD 0)
  let numCuts : ℕ := match prev with | none => maxNumCuts | some c => c
  let xIncrement := (xMax - xMin) / ((numCuts : ℚ) + 1)
  ⟨numCuts, (List.range numCuts).map fun i => xMin + ((i : ℚ) + 1) * xIncrement⟩

/-- Whether a cut-point computation ended in the source's `ext_throwError`
(a fatal error surfacing to the caller). -/
def isFatalError (r : Except String CutPointsResult) : Bool :=
  match r with
  | Except.error _ => true
  | Except.ok _ => false

/-- The cut-point count a fresh quantile computation induces for a column. -/
def freshQuantileNumCuts (x : List ℚ) (maxNumCuts : ℕ) : ℕ :=
  (quantileCutData x maxNumCuts).1

/-- The cut points a fresh quantile computation induces for a column. -/
def freshQuantileCutPoints (x : List ℚ) (maxNumCuts : ℕ) : List ℚ :=
  let (numCuts, step, offset, sortedElements) := quantileCutData x maxNumCuts
  quantileCutList sortedElements numCuts step offset

/-! ## Trees and predictor replacement (`setPredictor`, `updatePredictors`
    from bartFit.cpp lines 120-244) -/

/-- A regression tree: a leaf owns its training observation indices, an
internal node holds an ordinal split rule `(variableIndex, cutIndex)`
meaning left iff `X[i, variableIndex] <= cutPoints[variableIndex][cutIndex]`. -/
inductive PTree where
  | leaf (observationIndices : List ℕ)
  | internal (variableIndex cutIndex : ℕ) (left right : PTree)
deriving DecidableEq

namespace PTree

/-- Modelled from the spec: the tree sources (`Tree::updateWithNewCovariates`
and the node membership recomputation it triggers) are not among the staged
files, only their callers in bartFit.cpp are.  Per spec sections 3 and 4.5,
recomputing a tree under the current covariates routes every observation
reaching a node left iff its value in the split column is at most the rule's
cut value, and rewrites each leaf's observation indices accordingly. -/
def updateMemberships (X cutPoints : List (List ℚ)) : PTree → List ℕ → PTree
  | leaf _, idxs => leaf idxs
  | internal j c l r, idxs =>
    let cutValue := (cutPoints.getD j []).getD c 0
    let goesLeft := fun i => decide ((X.getD j []).getD i 0 ≤ cutValue)
    internal j c (updateMemberships X cutPoints l (idxs.filter goesLeft))
      (updateMemberships X cutPoints r (idxs.filter fun i => !goesLeft i))

/-- Modelled from the spec: recompute the whole tree's partition of the
training set `{0..numObservations-1}` under the covariates. -/
def updateWithNewCovariates (X cutPoints : List (List ℚ)) (numObservations : ℕ)
    (t : PTree) : PTree :=
  updateMemberships X cutPoints t (List.range numObservations)

/-- Modelled from the spec: a tree is valid iff no leaf has lost all of its
observations — equivalently, every split cut value still lies within the
feasible range of its column for that leaf, so each side keeps at least one
observation. -/
def isValid : PTree → Bool
  | leaf observationIndices => !observationIndices.isEmpty
  | internal _ _ l r => isValid l && isValid r

end PTree

/-- The parts of `BARTFit` that `setPredictor` / `updatePredictors` read and
write: `data.X` (column-major), `scratch.Xt` (its transposed copy, row
major), the cut points, and the ensemble.  Training-fit vectors are handled
by the separate fit-bookkeeping model below. -/
structure FitState where
  X : List (List ℚ)
  Xt : List (List ℚ)
  cutPoints : List (List ℚ)
  numCutsPerVariable : List ℕ
  maxNumCuts : List ℕ
  trees : List PTree
  numObservations : ℕ
  useQuantiles : Bool
deriving DecidableEq

/-- The row-major transposed copy of a column-major matrix with
`numObservations` rows, as the loops writing `Xt` build it. -/
def transposeCM (X : List (List ℚ)) (numObservations : ℕ) : List (List ℚ) :=
  (List.range numObservations).map fun row => X.map fun colValues => colValues.getD row 0

/-- Replace the named columns of a column-major matrix, in order, as the
`memcpy` loops over `columns` do. -/
def installColumns (M : List (List ℚ)) (cols : List ℕ) (vals : List (List ℚ)) :
    List (List ℚ) :=
  (cols.zip vals).foldl (fun acc p => acc.set p.1 p.2) M

/-- Write a column into the row-major transposed copy:
`Xt[row][j] := v[row]` for every row. -/
def setXtColumn : List (List ℚ) → ℕ → List ℚ → List (List ℚ)
  | [], _, _ => []
  | row :: rows, j, v => row.set j (v.headD 0) :: setXtColumn rows j v.tail

/-- Replace the named columns of the transposed copy, in order. -/
def installXtColumns (M : List (List ℚ)) (cols : List ℕ) (vals : List (List ℚ)) :
    List (List ℚ) :=
  (cols.zip vals).foldl (fun acc p => setXtColumn acc p.1 p.2) M

/-- `memcpy(dst, src, count * sizeof(double))` on buffers modelled as lists:
the first `count` entries come from `src`, the rest stay. -/
def memcpyPrefix (dst src : List ℚ) (count : ℕ) : List ℚ :=
  src.take count ++ dst.drop count

/-- Restore saved cut points column by column, each with the `memcpy` of
`numCutsPerVariable[column]` doubles the rollback performs. -/
def restoreCutPoints (numCutsPerVariable : List ℕ) (cutPoints : List (List ℚ))
    (cols : List ℕ) (olds : List (List ℚ)) : List (List ℚ) :=
  (cols.zip olds).foldl
    (fun cps p =>
      cps.set p.1 (memcpyPrefix (cps.getD p.1 []) p.2 (numCutsPerVariable.getD p.1 0)))
    cutPoints

/-- `setCutPoints` (bartFit.cpp lines 659-690) over the given columns: each
column's cut points are recomputed from the state's current `X` (the source
calls it before the new predictor values are installed).  Within
`setPredictor` / `updatePredictors` every column already has cut points, so
the replacement path (`numCutsPerVariable != -1`) is taken. -/
def setCutPoints : FitState → List ℕ → Except String FitState
  | s, [] => Except.ok s
  | s, col :: rest => do
    let res ←
      if s.useQuantiles then
        setCutPointsFromQuantiles (s.X.getD col []) (s.maxNumCuts.getD col 0)
          (some (s.numCutsPerVariable.getD col 0))
      else
        Except.ok (setCutPointsUniformly (s.X.getD col []) (s.maxNumCuts.getD col 0)
          (some (s.numCutsPerVariable.getD col 0)))
    setCutPoints
      { s with cutPoints := s.cutPoints.set col res.cutPoints,
               numCutsPerVariable := s.numCutsPerVariable.set col res.numCuts }
      rest

/-- The source's validity sweep: update trees in order with the new
covariates, stopping after the first tree that turns invalid (the loop
condition `allTreesAreValid == true`).  Returns the flag, the tree list
(updated prefix, untouched suffix), and `treeNum`, the number of trees the
loop touched. -/
def updateTreesUntilInvalid (X cutPoints : List (List ℚ)) (numObservations : ℕ) :
    List PTree → Bool × List PTree × ℕ
  | [] => (true, [], 0)
  | t :: ts =>
    let t' := PTree.updateWithNewCovariates X cutPoints numObservations t
    if t'.isValid then
      let (allValid, ts', touched) := updateTreesUntilInvalid X cutPoints numObservations ts
      (allValid, t' :: ts', touched + 1)
    else
      (false, t' :: ts, 1)

/-- `BARTFit::setPredictor` (bartFit.cpp lines 120-165): recompute cut
points for every column (from the old `X`), point `data.X` at the new
predictor wholesale, rebuild `Xt`, then check each tree under the new
covariates.  On failure nothing is restored; on success the training fits
are rewritten (tracked by the separate fit-bookkeeping model). -/
def setPredictor (s : FitState) (newPredictor : List (List ℚ)) :
    Except String (Bool × FitState) := do
  let s₁ ← setCutPoints s (List.range s.X.length)
  let X' := newPredictor
  let Xt' := transposeCM X' s.numObservations
  let (allTreesAreValid, trees', _) :=
    updateTreesUntilInvalid X' s₁.cutPoints s.numObservations s₁.trees
  Except.ok (allTreesAreValid, { s₁ with X := X', Xt := Xt', trees := trees' })

/-- `BARTFit::updatePredictors` (bartFit.cpp lines 172-244): save the old
columns and cut points, recompute cut points (from the old `X`), install
the new columns into `X` and `Xt`, sweep the trees; if any tree turned
invalid, copy the old columns and cut points back and re-update every
touched tree under the restored covariates, then report `false`. -/
def updatePredictors (s : FitState) (columns : List ℕ) (newCols : List (List ℚ)) :
    Except String (Bool × FitState) := do
  let oldPredictor := columns.map fun j => s.X.getD j []
  let oldCutPoints := columns.map fun j =>
    (s.cutPoints.getD j []).take (s.numCutsPerVariable.getD j 0)
  let s₁ ← setCutPoints s columns
  let X' := installColumns s₁.X columns newCols
  let Xt' := installXtColumns s₁.Xt columns newCols
  let (allTreesAreValid, trees', touched) :=
    updateTreesUntilInvalid X' s₁.cutPoints s.numObservations s₁.trees
  if allTreesAreValid then
    Except.ok (true, { s₁ with X := X', Xt := Xt', trees := trees' })
  else
    let X'' := installColumns X' columns oldPredictor
    let cutPoints'' := restoreCutPoints s₁.numCutsPerVariable s₁.cutPoints columns oldCutPoints
    let Xt'' := installXtColumns Xt' columns oldPredictor
    let trees'' :=
      (trees'.take touched).map (PTree.updateWithNewCovariates X'' cutPoints'' s.numObservations)
        ++ trees'.drop touched
    Except.ok (false, { s₁ with X := X'', Xt := Xt'', cutPoints := cutPoints'', trees := trees'' })

/-! ## Mean-Normal integrated log-likelihood
    (`MeanNormal::logIntegratedLikelihood`, endNodeModel.cpp lines 174-193)

    `std::log` is external; it is passed in as an abstract function `log`.
    The leaf scratch quantities are passed as arguments: `y_bar` is
    `scratch.mu` (the possibly weighted residual mean),
    `numEffectiveObservations` is the weight sum (or the count when weights
    are absent), and `var_y` is the value of `computeVarianceForNode`, the
    external reduction computing the residual variance about `y_bar`. -/

namespace MeanNormal

/-- `MeanNormal::logIntegratedLikelihood`, transcribed from the source:
returns 0 for an empty leaf, otherwise
`0.5 log(precision / (precision + dataPrecision))
 - 0.5 (var_y / residualVariance) (numObservationsInNode - 1)
 - 0.5 ((precision y_bar) (dataPrecision y_bar)) / (precision + dataPrecision)`
with `dataPrecision = numEffectiveObservations / residualVariance`. -/
def logIntegratedLikelihood (log : ℚ → ℚ) (precision : ℚ)
    (numObservationsInNode : ℕ) (numEffectiveObservations y_bar var_y residualVariance : ℚ) : ℚ :=
  if numObservationsInNode = 0 then 0
  else
    let dataPrecision := numEffectiveObservations / residualVariance
    (1 / 2 : ℚ) * log (precision / (precision + dataPrecision))
      - (1 / 2 : ℚ) * (var_y / residualVariance) * ((numObservationsInNode - 1 : ℕ) : ℚ)
      - (1 / 2 : ℚ) * ((precision * y_bar) * (dataPrecision * y_bar)) / (precision + dataPrecision)

/-- The spec's formula for the same quantity, word for word (claim C2):
`½ log(τ / (τ + n_eff/σ²)) − ½ (n_eff − 1) var_y / σ²
 − ½ (τ · n_eff · ȳ²) / (σ² (τ + n_eff/σ²))`, with the coefficient of the
`var_y / σ²` term equal to `n_eff − 1`, the effective (weight-sum) count
minus one. -/
def specLogIntegratedLikelihood (log : ℚ → ℚ) (tau : ℚ)
    (n_eff y_bar var_y sigmaSq : ℚ) : ℚ :=
  (1 / 2 : ℚ) * log (tau / (tau + n_eff / sigmaSq))
    - (1 / 2 : ℚ) * (n_eff - 1) * var_y / sigmaSq
    - (1 / 2 : ℚ) * (tau * n_eff * y_bar ^ 2) / (sigmaSq * (tau + n_eff / sigmaSq))

/-- The amended formula: identical to the spec's except that the
coefficient of the `var_y / σ²` term is the raw leaf observation count
minus one, `numObservationsInNode − 1` (equal to `n_eff − 1` only when
weights are absent). -/
def amendedLogIntegratedLikelihood (log : ℚ → ℚ) (tau : ℚ) (numObservationsInNode : ℕ)
    (n_eff y_bar var_y sigmaSq : ℚ) : ℚ :=
  (1 / 2 : ℚ) * log (tau / (tau + n_eff / sigmaSq))
    - (1 / 2 : ℚ) * ((numObservationsInNode - 1 : ℕ) : ℚ) * var_y / sigmaSq
    - (1 / 2 : ℚ) * (tau * n_eff * y_bar ^ 2) / (sigmaSq * (tau + n_eff / sigmaSq))

end MeanNormal

/-! ## The outer MCMC loop (`BARTFit::runSampler`, bartFit.cpp lines
    364-478) -/

/-- `isThinningIteration`: iteration k (0-based) is a thinning iteration iff
`(k + 1) % treeThinningRate != 0`. -/
def isThinningIteration (treeThinningRate k : ℕ) : Bool :=
  (k + 1) % treeThinningRate != 0

/-- `majorIterationNum = k / treeThinningRate`. -/
def majorIterationNum (treeThinningRate k : ℕ) : ℕ :=
  k / treeThinningRate

/-- The result slot a non-thinning iteration stores into: 0 while still in
burn-in (`simNum = (!isBurningIn ? majorIterationNum - numBurnIn : 0)`),
`majorIterationNum - numBurnIn` afterwards. -/
def simNumFor (numBurnIn treeThinningRate k : ℕ) : ℕ :=
  if majorIterationNum treeThinningRate k < numBurnIn then 0
  else majorIterationNum treeThinningRate k - numBurnIn

/-- The iteration/storage schedule of one `runSampler(numBurnIn, numSamples)`
call: the total number of iterations executed and, for every iteration on
which `storeSamples` runs, the pair (iteration index, result slot). -/
structure SamplerSchedule where
  totalNumIterations : ℕ
  writeSlots : List (ℕ × ℕ)
deriving DecidableEq

/-- The schedule `runSampler` executes: `(numBurnIn + numSamples) *
treeThinningRate` iterations; `storeSamples` runs on iteration k iff k is
not a thinning iteration, writing into slot `simNumFor`. -/
def runSamplerSchedule (numBurnIn numSamples treeThinningRate : ℕ) : SamplerSchedule :=
  let totalNumIterations := (numBurnIn + numSamples) * treeThinningRate
  ⟨totalNumIterations,
   (List.range totalNumIterations).filterMap fun k =>
     if isThinningIteration treeThinningRate k then none
     else some (k, simNumFor numBurnIn treeThinningRate k)⟩

/-- The sample-count field of the `Results` object `runSampler` allocates:
`numSamples == 0 ? 1 : numSamples` ("ensure at least one sample for
state's sake"). -/
structure ResultsBuffers where
  numObservations : ℕ
  numPredictors : ℕ
  numTestObservations : ℕ
  numSamples : ℕ
deriving DecidableEq

/-- What one `runSampler(numBurnIn, numSamples)` call returns and does:
the `Results` pointer handed back (`none` models the `NULL` return after
`delete resultsPointer` when `numSamples == 0`), the number of iterations
executed, and the internally allocated buffer. -/
structure RunSamplerOutcome where
  returned : Option ResultsBuffers
  iterationsExecuted : ℕ
  allocated : ResultsBuffers
deriving DecidableEq

/-- `BARTFit::runSampler(numBurnIn, numSamples)`, control-flow skeleton:
allocate `Results` with `max(numSamples, 1)` slots, run
`(numBurnIn + numSamples) * treeThinningRate` iterations, then delete the
buffer and return `NULL` iff `numSamples == 0`. -/
def runSampler (numObservations numPredictors numTestObservations : ℕ)
    (numBurnIn numSamples treeThinningRate : ℕ) : RunSamplerOutcome :=
  let results : ResultsBuffers :=
    ⟨numObservations, numPredictors, numTestObservations,
     if numSamples = 0 then 1 else numSamples⟩
  ⟨if numSamples = 0 then none else some results,
   (numBurnIn + numSamples) * treeThinningRate,
   results⟩

/-! ## Response rescaling and the residual-variance prior scale
    (`BARTFit::setResponse` / `BARTFit::setOffset` / `rescaleResponse`,
    bartFit.cpp lines 78-118 and 808-832) -/

/-- The parts of the fit that response replacement reads and writes: the
data, the response model's sigma (`CHEAT_SIGMA`, in scaled space), the
residual-variance prior's scale, and the data-scale triple. -/
structure ResponseScaleState where
  y : List ℚ
  offset : Option (List ℚ)
  sigma : ℚ
  scale : ℚ
  yRescaled : List ℚ
  dataScaleMin : ℚ
  dataScaleMax : ℚ
  dataScaleRange : ℚ
  responseIsBinary : Bool
  hasScaleParameter : Bool
deriving DecidableEq

/-- `y - offset` elementwise (`ext_addVectors(offset, n, -1.0, y, out)`),
or a copy of `y` when there is no offset. -/
def yMinusOffset (y : List ℚ) (offset : Option (List ℚ)) : List ℚ :=
  match offset with
  | none => y
  | some o => (y.zip o).map fun p => p.1 - p.2

/-- `rescaleResponse` (bartFit.cpp lines 808-832): recompute
`(min, max, range)` of `y - offset` and set
`yRescaled = (y - offset - min) / range - 0.5`. -/
def rescaleResponse (s : ResponseScaleState) : ResponseScaleState :=
  let yr := yMinusOffset s.y s.offset
  let mn := yr.foldl min (yr.headD 0)
  let mx := yr.foldl max (yr.headD 0)
  { s with
    dataScaleMin := mn, dataScaleMax := mx, dataScaleRange := mx - mn,
    yRescaled := yr.map fun v => (v - mn) / (mx - mn) - (1 / 2 : ℚ) }

/-- The continuous-response branch shared by `setResponse` and `setOffset`:
record the unscaled sigma and prior scale against the old range, rescale,
and divide them back by the new range (squared for the scale, which is
only read and written when the response model has a scale parameter). -/
def rescaleSigmaAndScale (s : ResponseScaleState) : ResponseScaleState :=
  let sigmaUnscaled := s.sigma * s.dataScaleRange
  let priorUnscaled := s.scale * s.dataScaleRange * s.dataScaleRange
  let s₁ := rescaleResponse s
  { s₁ with
    sigma := sigmaUnscaled / s₁.dataScaleRange,
    scale :=
      if s.hasScaleParameter then
        priorUnscaled / (s₁.dataScaleRange * s₁.dataScaleRange)
      else s₁.scale }

/-- `BARTFit::setResponse` (bartFit.cpp lines 78-97).  The binary branch
instead resamples the probit latents (modelled separately) and leaves the
scale state alone. -/
def setResponse (s : ResponseScaleState) (newY : List ℚ) : ResponseScaleState :=
  if s.responseIsBinary then { s with y := newY }
  else rescaleSigmaAndScale { s with y := newY }

/-- `BARTFit::setOffset` (bartFit.cpp lines 99-118). -/
def setOffset (s : ResponseScaleState) (newOffset : Option (List ℚ)) : ResponseScaleState :=
  if s.responseIsBinary then { s with offset := newOffset }
  else rescaleSigmaAndScale { s with offset := newOffset }

/-! ## Probit latent resampling (`sampleProbitLatentVariables`,
    bartFit.cpp lines 851-880, non-MATCH_BAYES_TREE path) -/

/-- Which side of the truncation point the Normal draw is conditioned on:
`lower` is `ext_rng_simulateLowerTruncatedNormalScale1` (the draw lies
above the bound), `upper` its mirror (the draw lies below the bound). -/
inductive TruncationSide where
  | lower
  | upper
deriving DecidableEq

/-- One requested truncated-Normal draw: a unit-variance Normal of the
given mean, truncated at `bound` on the given side.  The random number
generator is external; the embedding records the distribution each call
requests. -/
structure ProbitDraw where
  mean : ℚ
  bound : ℚ
  side : TruncationSide
deriving DecidableEq

/-- The per-observation offset value: `data.offset == NULL ? 0.0 :
data.offset[i]`. -/
def offsetAt (offset : Option (List ℚ)) (i : ℕ) : ℚ :=
  match offset with
  | none => 0
  | some o => o.getD i 0

/-- `sampleProbitLatentVariables(fit, fits, z)`: for every observation i,
request a unit-variance Normal of mean `fits[i]` truncated at `-offset[i]`
(at `-0.0 = 0` when there is no offset), from below when `y[i] > 0` and
from above otherwise. -/
def sampleProbitLatentVariables (y : List ℚ) (offset : Option (List ℚ))
    (fits : List ℚ) : List ProbitDraw :=
  (List.range y.length).map fun i =>
    if y.getD i 0 > 0 then ⟨fits.getD i 0, -offsetAt offset i, TruncationSide.lower⟩
    else ⟨fits.getD i 0, -offsetAt offset i, TruncationSide.upper⟩

/-! ## Fit bookkeeping (`setInitialFit`, `updateTotalFits`,
    `updateTrainingFits`, bartFit.cpp lines 756-777, 843-848, 927-945) -/

/-- `updateTotalFits`: `totalFits += currTreeFits - oldTreeFits`. -/
def updateTotalFits {numObservations : ℕ}
    (oldTreeFits currTreeFits totalFits : Fin numObservations → ℚ) :
    Fin numObservations → ℚ :=
  fun i => totalFits i - oldTreeFits i + currTreeFits i

/-- The per-tree fit matrix (`state.treeFits`, one vector per tree) and the
running total (`state.totalFits`). -/
structure FitVectors (numObservations numTrees : ℕ) where
  treeFits : Fin numTrees → Fin numObservations → ℚ
  totalFits : Fin numObservations → ℚ

/-- The invariant: `totalFits[i] = Σ_t treeFits[i, t]` for every i. -/
def totalFitsConsistent {numObservations numTrees : ℕ}
    (s : FitVectors numObservations numTrees) : Prop :=
  ∀ i, s.totalFits i = ∑ t, s.treeFits t i

instance {numObservations numTrees : ℕ} (s : FitVectors numObservations numTrees) :
    Decidable (totalFitsConsistent s) :=
  inferInstanceAs (Decidable (∀ i, s.totalFits i = ∑ t, s.treeFits t i))

/-- One tree sub-iteration's bookkeeping (runSampler loop body, lines
409-430, and each pass of `updateTrainingFits`): remove tree t's old fits
from the total, add in the current ones, and overwrite its fit vector. -/
def treeSubIteration {numObservations numTrees : ℕ}
    (s : FitVectors numObservations numTrees) (t : Fin numTrees)
    (currFits : Fin numObservations → ℚ) : FitVectors numObservations numTrees :=
  ⟨Function.update s.treeFits t currFits,
   updateTotalFits (s.treeFits t) currFits s.totalFits⟩

/-- `setInitialFit` (bartFit.cpp lines 756-777): every per-tree fit and the
total start at zero. -/
def setInitialFit (numObservations numTrees : ℕ) : FitVectors numObservations numTrees :=
  ⟨fun _ _ => 0, fun _ => 0⟩

/-- `updateTrainingFits` (bartFit.cpp lines 927-945): sweep the trees in
order; for each, subtract its fit vector from the total, refresh it from
the tree (`getFits`, whose output is passed in as `newFits`), and add it
back. -/
def updateTrainingFits {numObservations numTrees : ℕ}
    (s : FitVectors numObservations numTrees)
    (newFits : Fin numTrees → Fin numObservations → ℚ) :
    FitVectors numObservations numTrees :=
  (List.finRange numTrees).foldl (fun st t => treeSubIteration st t (newFits t)) s

/-! ## The host-language data initializer (`initializeDataFromExpression`,
    R_interface.cpp lines 622-638: the `weights` and `offset` sections) -/

/-- The two `Data` fields the claim is about.  `none` models a NULL
pointer. -/
structure DataWeightsOffset where
  weights : Option (List ℚ)
  offset : Option (List ℚ)
deriving DecidableEq

/-- The `weights` and `offset` sections of `initializeDataFromExpression`,
transcribed from the source: a null/absent/empty `weights` expression
writes NULL to `data.weights`; a null/absent/empty `offset` expression
also writes NULL to `data.weights` (leaving `data.offset` unassigned),
while a present one of the right length is assigned to `data.offset`.
Length mismatches are the R-level `error(...)` calls. -/
def initializeDataFromExpression (numObservations : ℕ) (d : DataWeightsOffset)
    (weightsExpr offsetExpr : Option (List ℚ)) : Except String DataWeightsOffset := do
  let d₁ ←
    match weightsExpr with
    | none => Except.ok { d with weights := none }
    | some w =>
      if w.length ≠ numObservations then
        Except.error ("Length of weights must equal length of y")
      else Except.ok { d with weights := some w }
  match offsetExpr with
  | none => Except.ok { d₁ with weights := none }
  | some o =>
    if o.length ≠ numObservations then
      Except.error ("Length of offset must equal length of y")
    else Except.ok { d₁ with offset := some o }

/-! ## Concrete states used to witness the theorems -/

/-- A tiny fit: two observations, one predictor column `[0, 1]`, uniform
cut points `[1/2]`, and a single tree splitting on that cut, with leaves
`{0}` and `{1}`. -/
def exampleFitC1 : FitState :=
  { X := [[0, 1]]
    Xt := [[0], [1]]
    cutPoints := [[1 / 2]]
    numCutsPerVariable := [1]
    maxNumCuts := [1]
    trees := [PTree.internal 0 0 (PTree.leaf [0]) (PTree.leaf [1])]
    numObservations := 2
    useQuantiles := false }

/-- A continuous-response scale state: `y = [0, 2]`, no offset, scaled
sigma 1, prior scale 4, data-scale range 2. -/
def exampleScaleState : ResponseScaleState :=
  { y := [0, 2]
    offset := none
    sigma := 1
    scale := 4
    yRescaled := [-(1 / 2), 1 / 2]
    dataScaleMin := 0
    dataScaleMax := 2
    dataScaleRange := 2
    responseIsBinary := false
    hasScaleParameter := true }

/-! ## Helper lemmas -/

theorem except_ok_bind {ε α β : Type} (a : α) (f : α → Except ε β) :
    (Except.ok a : Except ε α) >>= f = f a :=
  rfl

theorem except_error_bind {ε α β : Type} (e : ε) (f : α → Except ε β) :
    (Except.error e : Except ε α) >>= f = Except.error e :=
  rfl

theorem quantileCutList_take {sortedElements : List ℚ} {p nc step offset : ℕ}
    (h : p ≤ nc) :
    quantileCutList sortedElements p step offset
      = (quantileCutList sortedElements nc step offset).take p := by
  unfold quantileCutList
  rw [← List.map_take, List.take_range, Nat.min_eq_left h]

/-! ## Claim theorems -/

/-- C2 counterexample: with two observations of total weight three
(`numObservationsInNode = 2`, `numEffectiveObservations = 3`), unit residual
variance and variance, zero mean, and unit prior precision, the code's
integrated log-likelihood is `-1/2` while the spec's formula (whose
`var_y/σ²` coefficient is `n_eff − 1`) gives `-1`; the external `log` is
irrelevant since both log terms agree (instantiated at the zero function
here). -/
theorem C2_counterexample :
    MeanNormal.logIntegratedLikelihood (fun _ => 0) 1 2 3 0 1 1
      ≠ MeanNormal.specLogIntegratedLikelihood (fun _ => 0) 1 3 0 1 1 := by
  norm_num [MeanNormal.logIntegratedLikelihood, MeanNormal.specLogIntegratedLikelihood]

/-- The discrepancy between the code and the spec's formula at that input
does not depend on the external `log`: the difference is `1/2` for every
log function, because the two log terms take the same argument. -/
theorem meanNormal_code_spec_difference (log : ℚ → ℚ) :
    MeanNormal.logIntegratedLikelihood log 1 2 3 0 1 1
      - MeanNormal.specLogIntegratedLikelihood log 1 3 0 1 1 = 1 / 2 := by
  norm_num [MeanNormal.logIntegratedLikelihood, MeanNormal.specLogIntegratedLikelihood]

/-- C2 (amended): for every nonempty leaf the Mean-Normal integrated
log-likelihood equals
`½ log(τ/(τ + n_eff/σ²)) − ½ (numObservations − 1) var_y/σ²
 − ½ τ n_eff ȳ² / (σ² (τ + n_eff/σ²))`:
the coefficient of the `var_y/σ²` term is the raw observation count minus
one, not the effective (weight-sum) count minus one. -/
theorem C2_meanNormalLikelihood (log : ℚ → ℚ) (precision : ℚ)
    (numObservationsInNode : ℕ) (numEffectiveObservations y_bar var_y residualVariance : ℚ)
    (h : numObservationsInNode ≠ 0) :
    MeanNormal.logIntegratedLikelihood log precision numObservationsInNode
        numEffectiveObservations y_bar var_y residualVariance
      = MeanNormal.amendedLogIntegratedLikelihood log precision numObservationsInNode
          numEffectiveObservations y_bar var_y residualVariance := by
  unfold MeanNormal.logIntegratedLikelihood MeanNormal.amendedLogIntegratedLikelihood
  rw [if_neg h]
  simp only [div_eq_mul_inv, mul_inv]
  ring

/-- C2 witness: the amended equation at the counterexample's input. -/
theorem C2_meanNormalLikelihood_witness :
    MeanNormal.logIntegratedLikelihood (fun _ => 0) 1 2 3 0 1 1
      = MeanNormal.amendedLogIntegratedLikelihood (fun _ => 0) 1 2 3 0 1 1 :=
  C2_meanNormalLikelihood (fun _ => 0) 1 2 3 0 1 1 (by decide)

/-- C3 counterexample: with `numBurnIn = 1`, `numSamples = 1`,
`treeThinningRate = 1`, iteration 0 is a non-thinning burn-in iteration
(its major iteration number 0 is below `numBurnIn`), yet `storeSamples`
runs on it, writing into result slot 0 — so a sample is written on an
iteration on which the chain is still in burn-in, contradicting the "only
if" direction of the claim. -/
theorem C3_counterexample :
    (0, 0) ∈ (runSamplerSchedule 1 1 1).writeSlots ∧ majorIterationNum 1 0 < 1 := by
  decide

/-- C3 (amended): `runSampler(numBurnIn, numSamples)` executes exactly
`(numBurnIn + numSamples) · treeThinningRate` iterations, and
`storeSamples` writes a sample on iteration k iff k is a non-thinning
iteration (`(k+1) % treeThinningRate == 0`) — including during burn-in, in
which case the write goes to result slot 0 (overwritten later); after
burn-in the slot is `majorIterationNum − numBurnIn`. -/
theorem C3_samplerSchedule (numBurnIn numSamples treeThinningRate : ℕ) :
    (runSamplerSchedule numBurnIn numSamples treeThinningRate).totalNumIterations
      = (numBurnIn + numSamples) * treeThinningRate
    ∧ ∀ k slot,
        ((k, slot) ∈ (runSamplerSchedule numBurnIn numSamples treeThinningRate).writeSlots
          ↔ k < (numBurnIn + numSamples) * treeThinningRate
            ∧ isThinningIteration treeThinningRate k = false
            ∧ slot = simNumFor numBurnIn treeThinningRate k) := by
  refine ⟨rfl, fun k slot => ?_⟩
  simp only [runSamplerSchedule, List.mem_filterMap, List.mem_range]
  constructor
  · rintro ⟨a, ha, hf⟩
    by_cases hth : isThinningIteration treeThinningRate a
    · simp [hth] at hf
    · simp only [hth, if_false, Option.some.injEq, Prod.mk.injEq] at hf
      obtain ⟨rfl, rfl⟩ := hf
      exact ⟨ha, by simpa using hth, rfl⟩
  · rintro ⟨hk, hth, rfl⟩
    exact ⟨k, hk, by simp [hth]⟩

/-- C10: `runSampler(numBurnIn, numSamples)` returns `NULL` iff
`numSamples = 0`; it always executes `(numBurnIn + numSamples) ·
treeThinningRate` iterations and allocates a results buffer with
`max(numSamples, 1)` sample slots; in particular `runSampler(numBurnIn, 0)`
still advances the chain for `numBurnIn · treeThinningRate` iterations with
a one-sample internal buffer and returns `NULL`. -/
theorem C10_runSampler (numObservations numPredictors numTestObservations
    numBurnIn numSamples treeThinningRate : ℕ) :
    ((runSampler numObservations numPredictors numTestObservations
        numBurnIn numSamples treeThinningRate).returned = none ↔ numSamples = 0)
    ∧ (runSampler numObservations numPredictors numTestObservations
        numBurnIn numSamples treeThinningRate).iterationsExecuted
      = (numBurnIn + numSamples) * treeThinningRate
    ∧ (runSampler numObservations numPredictors numTestObservations
        numBurnIn numSamples treeThinningRate).allocated.numSamples
      = (if numSamples = 0 then 1 else numSamples)
    ∧ (runSampler numObservations numPredictors numTestObservations
        numBurnIn 0 treeThinningRate).iterationsExecuted
      = numBurnIn * treeThinningRate
    ∧ (runSampler numObservations numPredictors numTestObservations
        numBurnIn 0 treeThinningRate).returned = none
    ∧ (runSampler numObservations numPredictors numTestObservations
        numBurnIn 0 treeThinningRate).allocated.numSamples = 1 := by
  by_cases h : numSamples = 0 <;> simp [runSampler, h]

/-- C4: replacing a predictor column raises the fatal error iff the new
column induces fewer cut points than the column currently has; when it
induces at least as many, the count is kept and exactly the first
`previousNumCuts` of the induced cut points are adopted.  In uniform mode
a replacement keeps the existing count (which on any existing fit equals
`maxNumCuts`, the only value a uniform install ever writes) and recomputes
the same cut points a fresh install would, so neither case of the
quantile check can arise there. -/
theorem C4_cutPointReplacement (x : List ℚ) (maxNumCuts previousNumCuts : ℕ) :
    (isFatalError (setCutPointsFromQuantiles x maxNumCuts (some previousNumCuts)) = true
      ↔ freshQuantileNumCuts x maxNumCuts < previousNumCuts)
    ∧ (previousNumCuts ≤ freshQuantileNumCuts x maxNumCuts →
        setCutPointsFromQuantiles x maxNumCuts (some previousNumCuts)
          = Except.ok ⟨previousNumCuts, (freshQuantileCutPoints x maxNumCuts).take previousNumCuts⟩)
    ∧ (∀ currentNumCuts, setCutPointsUniformly x currentNumCuts (some currentNumCuts)
        = setCutPointsUniformly x currentNumCuts none) := by
  refine ⟨?_, ?_, fun currentNumCuts => rfl⟩
  · rcases hq : quantileCutData x maxNumCuts with ⟨nc, step, offset, sorted⟩
    simp only [setCutPointsFromQuantiles, freshQuantileNumCuts, hq]
    by_cases hlt : nc < previousNumCuts <;> simp [hlt, isFatalError]
  · intro hle
    rcases hq : quantileCutData x maxNumCuts with ⟨nc, step, offset, sorted⟩
    simp only [freshQuantileNumCuts, hq] at hle
    simp only [setCutPointsFromQuantiles, freshQuantileCutPoints, hq]
    rw [if_neg (Nat.not_lt.mpr hle)]
    exact congrArg Except.ok (congrArg (CutPointsResult.mk previousNumCuts)
      (quantileCutList_take hle))

/-- C5 counterexample: for the column `[0,1,2,3,4]` with `maxNumCuts = 2`
(five distinct values, so the quantile branch with `numUnique >
maxNumCuts + 1` is taken), the integer step `numCuts / numUnique = 2 / 5`
is 0, both chosen indices equal `min(0·0 + 0/2, 3) = 0`, and both cut
points equal `(v[0] + v[1]) / 2 = 1/2` — the indices are not even
distinct, let alone evenly spaced across the sorted distinct-value
array. -/
theorem C5_counterexample :
    freshQuantileCutPoints [0, 1, 2, 3, 4] 2 = [1 / 2, 1 / 2]
    ∧ quantileCutIndex 5 (2 / 5) (2 / 5 / 2) 0 = 0
    ∧ quantileCutIndex 5 (2 / 5) (2 / 5 / 2) 1 = 0
    ∧ ¬ quantileCutIndex 5 (2 / 5) (2 / 5 / 2) 0 < quantileCutIndex 5 (2 / 5) (2 / 5 / 2) 1 := by
  refine ⟨?_, by decide, by decide, by decide⟩
  norm_num [freshQuantileCutPoints, quantileCutData, sortedUniqueElements, insertSorted,
    quantileCutList, quantileCutIndex, List.range_succ]

/-- C5 (amended): in quantile mode, when a column has more than
`maxNumCuts + 1` distinct values, `numCuts` is set to `maxNumCuts` and the
i-th cut point is `(v[idx] + v[idx+1]) / 2` with
`idx = min(i·(numCuts/numUnique) + (numCuts/numUnique)/2, numUnique − 2)`
in integer arithmetic; but since `numCuts < numUnique` the integer step
`numCuts/numUnique` is 0, every chosen index equals 0, and all `numCuts`
cut points coincide at `(v[0] + v[1]) / 2` — the indices are not evenly
spaced in the sorted distinct-value array. -/
theorem C5_quantileIndices (x : List ℚ) (maxNumCuts : ℕ)
    (h : maxNumCuts + 1 < (sortedUniqueElements x).length) :
    freshQuantileNumCuts x maxNumCuts = maxNumCuts
    ∧ maxNumCuts / (sortedUniqueElements x).length = 0
    ∧ (∀ i, quantileCutIndex (sortedUniqueElements x).length
        (maxNumCuts / (sortedUniqueElements x).length)
        (maxNumCuts / (sortedUniqueElements x).length / 2) i = 0)
    ∧ freshQuantileCutPoints x maxNumCuts
      = List.replicate maxNumCuts
          ((1 / 2 : ℚ) * ((sortedUniqueElements x).getD 0 0 + (sortedUniqueElements x).getD 1 0)) := by
  have hstep : maxNumCuts / (sortedUniqueElements x).length = 0 :=
    Nat.div_eq_of_lt (by omega)
  have hidx : ∀ i, quantileCutIndex (sortedUniqueElements x).length
      (maxNumCuts / (sortedUniqueElements x).length)
      (maxNumCuts / (sortedUniqueElements x).length / 2) i = 0 := by
    intro i
    simp [quantileCutIndex, hstep]
  have hif : ¬ (sortedUniqueElements x).length ≤ maxNumCuts + 1 := by omega
  refine ⟨?_, hstep, hidx, ?_⟩
  · unfold freshQuantileNumCuts quantileCutData
    simp [hif]
  · unfold freshQuantileCutPoints quantileCutData
    simp only [hif, if_false]
    unfold quantileCutList
    rw [List.eq_replicate_iff]
    refine ⟨by simp, ?_⟩
    intro b hb
    simp only [List.mem_map, List.mem_range] at hb
    obtain ⟨i, _, rfl⟩ := hb
    rw [hidx i]

/-- C5 witness: the amended statement at the counterexample's column. -/
theorem C5_quantileIndices_witness :
    freshQuantileNumCuts [0, 1, 2, 3, 4] 2 = 2
    ∧ 2 / (sortedUniqueElements [(0 : ℚ), 1, 2, 3, 4]).length = 0
    ∧ (∀ i, quantileCutIndex (sortedUniqueElements [(0 : ℚ), 1, 2, 3, 4]).length
        (2 / (sortedUniqueElements [(0 : ℚ), 1, 2, 3, 4]).length)
        (2 / (sortedUniqueElements [(0 : ℚ), 1, 2, 3, 4]).length / 2) i = 0)
    ∧ freshQuantileCutPoints [0, 1, 2, 3, 4] 2
      = List.replicate 2
          ((1 / 2 : ℚ) * ((sortedUniqueElements [(0 : ℚ), 1, 2, 3, 4]).getD 0 0
            + (sortedUniqueElements [(0 : ℚ), 1, 2, 3, 4]).getD 1 0)) :=
  C5_quantileIndices [0, 1, 2, 3, 4] 2
    (by norm_num [sortedUniqueElements, insertSorted])

/-- C9: in the data initializer, a null or absent offset expression writes
NULL to the `weights` field (not to `offset`, which keeps its previous
value); a null or absent weights expression also writes NULL to `weights`;
and a present offset expression is assigned to the `offset` field. -/
theorem C9_initializeData (numObservations : ℕ) (d : DataWeightsOffset)
    (weightsExpr offsetExpr : Option (List ℚ)) (res : DataWeightsOffset)
    (h : initializeDataFromExpression numObservations d weightsExpr offsetExpr
      = Except.ok res) :
    (offsetExpr = none → res.weights = none ∧ res.offset = d.offset)
    ∧ (weightsExpr = none → res.weights = none)
    ∧ (∀ o, offsetExpr = some o → res.offset = some o) := by
  rcases weightsExpr with _ | w <;> rcases offsetExpr with _ | o
  · simp only [initializeDataFromExpression, except_ok_bind] at h
    injection h with h
    subst h
    simp
  · simp only [initializeDataFromExpression, except_ok_bind] at h
    split at h
    · exact Except.noConfusion h
    · injection h with h
      subst h
      simp
  · simp only [initializeDataFromExpression] at h
    split at h
    · rw [except_error_bind] at h
      exact Except.noConfusion h
    · rw [except_ok_bind] at h
      injection h with h
      subst h
      simp
  · simp only [initializeDataFromExpression] at h
    split at h
    · rw [except_error_bind] at h
      exact Except.noConfusion h
    · rw [except_ok_bind] at h
      split at h
      · exact Except.noConfusion h
      · injection h with h
        subst h
        simp

/-- C9 witness: with one observation, old fields `(some [9], some [8])`,
an absent weights expression and an offset expression `[7]`, the
initializer returns `(weights = none, offset = some [7])`. -/
theorem C9_initializeData_witness :
    ((some [(7 : ℚ)] : Option (List ℚ)) = none
      → (DataWeightsOffset.mk none (some [7])).weights = none
        ∧ (DataWeightsOffset.mk none (some [7])).offset
          = (DataWeightsOffset.mk (some [9]) (some [8])).offset)
    ∧ ((none : Option (List ℚ)) = none → (DataWeightsOffset.mk none (some [7])).weights = none)
    ∧ (∀ o, (some [(7 : ℚ)] : Option (List ℚ)) = some o
        → (DataWeightsOffset.mk none (some [7])).offset = some o) :=
  C9_initializeData 1 (DataWeightsOffset.mk (some [9]) (some [8])) none (some [7])
    (DataWeightsOffset.mk none (some [7])) rfl

/-- C7: each probit latent resampling call requests, for observation i, a
unit-variance Normal draw of mean `totalFits[i]`, truncated below iff
`y[i] > 0` and above otherwise, at the point `-offset[i]` (the offset
shifts the truncation point); with no offset the truncation point is 0. -/
theorem C7_probitTruncation (y fits : List ℚ) (offset : Option (List ℚ)) (i : ℕ)
    (hi : i < y.length) :
    ((sampleProbitLatentVariables y offset fits).getD i ⟨0, 0, TruncationSide.lower⟩).mean
      = fits.getD i 0
    ∧ (((sampleProbitLatentVariables y offset fits).getD i ⟨0, 0, TruncationSide.lower⟩).side
        = TruncationSide.lower ↔ 0 < y.getD i 0)
    ∧ ((sampleProbitLatentVariables y offset fits).getD i ⟨0, 0, TruncationSide.lower⟩).bound
      = -offsetAt offset i
    ∧ (offset = none →
        ((sampleProbitLatentVariables y offset fits).getD i ⟨0, 0, TruncationSide.lower⟩).bound
          = 0) := by
  have hget : (sampleProbitLatentVariables y offset fits).getD i ⟨0, 0, TruncationSide.lower⟩
      = if y.getD i 0 > 0 then ⟨fits.getD i 0, -offsetAt offset i, TruncationSide.lower⟩
        else ⟨fits.getD i 0, -offsetAt offset i, TruncationSide.upper⟩ := by
    rw [sampleProbitLatentVariables, List.getD_eq_getElem?_getD, List.getElem?_map,
      List.getElem?_range hi]
    rfl
  rw [hget]
  rcases offset with _ | o <;> by_cases hy : 0 < y.getD i 0 <;>
    · rw [List.getD_eq_getElem?_getD] at hy
      simp [hy, offsetAt]

/-- C7 witness: one observation with `y = [1]`, no offset, `fits = [3]`:
the requested draw has mean 3, is lower-truncated, and its truncation
point is 0. -/
theorem C7_probitTruncation_witness :
    ((sampleProbitLatentVariables [1] none [3]).getD 0 ⟨0, 0, TruncationSide.lower⟩).mean
      = ([3] : List ℚ).getD 0 0
    ∧ (((sampleProbitLatentVariables [1] none [3]).getD 0 ⟨0, 0, TruncationSide.lower⟩).side
        = TruncationSide.lower ↔ 0 < ([1] : List ℚ).getD 0 0)
    ∧ ((sampleProbitLatentVariables [1] none [3]).getD 0 ⟨0, 0, TruncationSide.lower⟩).bound
      = -offsetAt none 0
    ∧ ((none : Option (List ℚ)) = none →
        ((sampleProbitLatentVariables [1] none [3]).getD 0 ⟨0, 0, TruncationSide.lower⟩).bound
          = 0) :=
  C7_probitTruncation [1] [3] none 0 (by decide)

theorem rescaleSigmaAndScale_eqs (s : ResponseScaleState)
    (hs : s.hasScaleParameter = true) :
    (rescaleSigmaAndScale s).scale
      = s.scale * (s.dataScaleRange / (rescaleSigmaAndScale s).dataScaleRange) ^ 2
    ∧ (rescaleSigmaAndScale s).sigma
      = s.sigma * (s.dataScaleRange / (rescaleSigmaAndScale s).dataScaleRange) := by
  simp only [rescaleSigmaAndScale, hs, if_true]
  constructor <;>
    · simp only [div_eq_mul_inv, mul_inv]
      ring

/-- C6: replacing the response or the offset of a continuous-response fit
multiplies the residual-variance prior's scale by `(oldRange/newRange)²`
and the sampler's sigma by `oldRange/newRange`, where the ranges are the
data-scale ranges before and after rescaling. -/
theorem C6_scalePreservation (s : ResponseScaleState) (newY : List ℚ)
    (newOffset : Option (List ℚ))
    (hb : s.responseIsBinary = false) (hs : s.hasScaleParameter = true) :
    ((setResponse s newY).scale
        = s.scale * (s.dataScaleRange / (setResponse s newY).dataScaleRange) ^ 2
      ∧ (setResponse s newY).sigma
        = s.sigma * (s.dataScaleRange / (setResponse s newY).dataScaleRange))
    ∧ ((setOffset s newOffset).scale
        = s.scale * (s.dataScaleRange / (setOffset s newOffset).dataScaleRange) ^ 2
      ∧ (setOffset s newOffset).sigma
        = s.sigma * (s.dataScaleRange / (setOffset s newOffset).dataScaleRange)) := by
  constructor
  · have h := rescaleSigmaAndScale_eqs { s with y := newY } hs
    simpa [setResponse, hb] using h
  · have h := rescaleSigmaAndScale_eqs { s with offset := newOffset } hs
    simpa [setOffset, hb] using h

/-- C6 witness: the scale and sigma relations at a concrete continuous
fit with range 2 and a replacement response. -/
theorem C6_scalePreservation_witness :
    ((setResponse exampleScaleState [0, 4]).scale
        = exampleScaleState.scale
          * (exampleScaleState.dataScaleRange / (setResponse exampleScaleState [0, 4]).dataScaleRange) ^ 2
      ∧ (setResponse exampleScaleState [0, 4]).sigma
        = exampleScaleState.sigma
          * (exampleScaleState.dataScaleRange / (setResponse exampleScaleState [0, 4]).dataScaleRange))
    ∧ ((setOffset exampleScaleState none).scale
        = exampleScaleState.scale
          * (exampleScaleState.dataScaleRange / (setOffset exampleScaleState none).dataScaleRange) ^ 2
      ∧ (setOffset exampleScaleState none).sigma
        = exampleScaleState.sigma
          * (exampleScaleState.dataScaleRange / (setOffset exampleScaleState none).dataScaleRange)) :=
  C6_scalePreservation exampleScaleState [0, 4] none rfl rfl

theorem totalFitsConsistent_step {numObservations numTrees : ℕ}
    (s : FitVectors numObservations numTrees) (t : Fin numTrees)
    (currFits : Fin numObservations → ℚ) (h : totalFitsConsistent s) :
    totalFitsConsistent (treeSubIteration s t currFits) := by
  intro i
  have hupd : ∀ t', Function.update s.treeFits t currFits t' i
      = Function.update (fun t' => s.treeFits t' i) t (currFits i) t' := by
    intro t'
    by_cases ht : t' = t
    · subst ht
      simp
    · simp [Function.update_apply, ht]
  have hsplit : ∑ t', s.treeFits t' i
      = ∑ t' ∈ Finset.univ \ {t}, s.treeFits t' i + s.treeFits t i :=
    Finset.sum_eq_sum_diff_singleton_add (Finset.mem_univ t) _
  show s.totalFits i - s.treeFits t i + currFits i
      = ∑ t', Function.update s.treeFits t currFits t' i
  rw [Finset.sum_congr rfl fun t' _ => hupd t',
    Finset.sum_update_of_mem (Finset.mem_univ t), h i, hsplit]
  ring

theorem totalFitsConsistent_foldl {numObservations numTrees : ℕ}
    (newFits : Fin numTrees → Fin numObservations → ℚ) (l : List (Fin numTrees)) :
    ∀ s : FitVectors numObservations numTrees, totalFitsConsistent s →
      totalFitsConsistent
        (l.foldl (fun st t => treeSubIteration st t (newFits t)) s) := by
  induction l with
  | nil => exact fun s h => h
  | cons t ts ih =>
    intro s h
    exact ih _ (totalFitsConsistent_step s t (newFits t) h)

/-- C8: `totalFits[i] = Σ_t treeFits[i, t]` holds after construction
(`setInitialFit` zeroes both sides) and is preserved by every tree
sub-iteration of the sampler and by the training-fit rewrite every
successful predictor replacement performs. -/
theorem C8_totalFitsInvariant (numObservations numTrees : ℕ) :
    totalFitsConsistent (setInitialFit numObservations numTrees)
    ∧ (∀ (s : FitVectors numObservations numTrees) (t : Fin numTrees)
        (currFits : Fin numObservations → ℚ),
        totalFitsConsistent s → totalFitsConsistent (treeSubIteration s t currFits))
    ∧ (∀ (s : FitVectors numObservations numTrees)
        (newFits : Fin numTrees → Fin numObservations → ℚ),
        totalFitsConsistent s → totalFitsConsistent (updateTrainingFits s newFits)) := by
  refine ⟨?_, totalFitsConsistent_step, ?_⟩
  · intro i
    simp [setInitialFit]
  · intro s newFits h
    exact totalFitsConsistent_foldl newFits (List.finRange numTrees) s h

theorem set_getD_self {α : Type} : ∀ (l : List α) (i : ℕ) (d : α),
    l.set i (l.getD i d) = l
  | [], _, _ => rfl
  | _ :: _, 0, _ => rfl
  | a :: l, i + 1, d => congrArg (a :: ·) (set_getD_self l i d)

theorem tail_getD {α : Type} : ∀ (l : List α) (i : ℕ) (d : α),
    l.tail.getD i d = l.getD (i + 1) d
  | [], _, _ => rfl
  | _ :: _, _, _ => rfl

theorem getD_map_col (X : List (List ℚ)) (r : ℕ) :
    ∀ j, (X.map fun c => c.getD r 0).getD j 0 = (X.getD j []).getD r 0 := by
  induction X with
  | nil => intro j; rfl
  | cons c X ih =>
    intro j
    cases j with
    | zero => rfl
    | succ j => exact ih j

theorem getD_map_range {α : Type} (f : ℕ → α) (n r : ℕ) (d : α) (h : r < n) :
    ((List.range n).map f).getD r d = f r := by
  rw [List.getD_eq_getElem?_getD, List.getElem?_map, List.getElem?_range h]
  rfl

theorem memcpyPrefix_take_self (l : List ℚ) (n : ℕ) :
    memcpyPrefix l (l.take n) n = l := by
  unfold memcpyPrefix
  rw [List.take_take, Nat.min_self, List.take_append_drop]

theorem installColumns_vals_nil (M : List (List ℚ)) (cols : List ℕ) :
    installColumns M cols [] = M := by
  unfold installColumns
  rw [List.zip_nil_right]
  rfl

theorem installXtColumns_vals_nil (M : List (List ℚ)) (cols : List ℕ) :
    installXtColumns M cols [] = M := by
  unfold installXtColumns
  rw [List.zip_nil_right]
  rfl

theorem restoreCutPoints_self (ncs : List ℕ) (cols : List ℕ) :
    ∀ cps : List (List ℚ),
      restoreCutPoints ncs cps cols (cols.map fun j => (cps.getD j []).take (ncs.getD j 0)) = cps := by
  induction cols with
  | nil => intro cps; rfl
  | cons j js ih =>
    intro cps
    show restoreCutPoints ncs
        (cps.set j (memcpyPrefix (cps.getD j []) ((cps.getD j []).take (ncs.getD j 0)) (ncs.getD j 0)))
        js (js.map fun i => (cps.getD i []).take (ncs.getD i 0)) = cps
    rw [memcpyPrefix_take_self, set_getD_self]
    exact ih cps

theorem installColumns_set_comm (v : List ℚ) (js : List ℕ) :
    ∀ (vs : List (List ℚ)) (M : List (List ℚ)) (j : ℕ), j ∉ js →
      installColumns (M.set j v) js vs = (installColumns M js vs).set j v := by
  induction js with
  | nil => intro vs M j _; rfl
  | cons i js ih =>
    intro vs M j h
    rcases vs with _ | ⟨w, vs⟩
    · rw [installColumns_vals_nil, installColumns_vals_nil]
    · show installColumns ((M.set j v).set i w) js vs = (installColumns (M.set i w) js vs).set j v
      rw [List.set_comm _ _ _ fun he => h (List.mem_cons.mpr (Or.inl he))]
      exact ih vs (M.set i w) j fun hm => h (List.mem_cons.mpr (Or.inr hm))

theorem installColumns_cancel (f : ℕ → List ℚ) (cols : List ℕ) :
    ∀ (vals : List (List ℚ)) (M : List (List ℚ)), cols.Nodup →
      installColumns (installColumns M cols vals) cols (cols.map f)
        = installColumns M cols (cols.map f) := by
  induction cols with
  | nil => intro vals M _; rfl
  | cons j js ih =>
    intro vals M h
    rcases vals with _ | ⟨v, vs⟩
    · rw [installColumns_vals_nil]
    · show installColumns ((installColumns (M.set j v) js vs).set j (f j)) js (js.map f)
        = installColumns (M.set j (f j)) js (js.map f)
      rw [← installColumns_set_comm (f j) js vs (M.set j v) j (List.nodup_cons.mp h).1,
        List.set_set]
      exact ih vs (M.set j (f j)) (List.nodup_cons.mp h).2

theorem installColumns_restore_self (cols : List ℕ) :
    ∀ M : List (List ℚ),
      installColumns M cols (cols.map fun j => M.getD j []) = M := by
  induction cols with
  | nil => intro M; rfl
  | cons j js ih =>
    intro M
    show installColumns (M.set j (M.getD j [])) js (js.map fun i => M.getD i []) = M
    rw [set_getD_self]
    exact ih M

theorem setXtColumn_comm (i j : ℕ) (h : i ≠ j) :
    ∀ (M : List (List ℚ)) (a b : List ℚ),
      setXtColumn (setXtColumn M i a) j b = setXtColumn (setXtColumn M j b) i a
  | [], _, _ => rfl
  | row :: rows, a, b => by
    show (row.set i (a.headD 0)).set j (b.headD 0) :: setXtColumn (setXtColumn rows i a.tail) j b.tail
      = (row.set j (b.headD 0)).set i (a.headD 0) :: setXtColumn (setXtColumn rows j b.tail) i a.tail
    rw [List.set_comm _ _ _ h, setXtColumn_comm i j h rows a.tail b.tail]

theorem setXtColumn_overwrite (j : ℕ) :
    ∀ (M : List (List ℚ)) (a b : List ℚ),
      setXtColumn (setXtColumn M j a) j b = setXtColumn M j b
  | [], _, _ => rfl
  | row :: rows, a, b => by
    show (row.set j (a.headD 0)).set j (b.headD 0) :: setXtColumn (setXtColumn rows j a.tail) j b.tail
      = row.set j (b.headD 0) :: setXtColumn rows j b.tail
    rw [List.set_set, setXtColumn_overwrite j rows a.tail b.tail]

theorem installXtColumns_set_comm (v : List ℚ) (js : List ℕ) :
    ∀ (vs : List (List ℚ)) (M : List (List ℚ)) (j : ℕ), j ∉ js →
      installXtColumns (setXtColumn M j v) js vs
        = setXtColumn (installXtColumns M js vs) j v := by
  induction js with
  | nil => intro vs M j _; rfl
  | cons i js ih =>
    intro vs M j h
    rcases vs with _ | ⟨w, vs⟩
    · rw [installXtColumns_vals_nil, installXtColumns_vals_nil]
    · show installXtColumns (setXtColumn (setXtColumn M j v) i w) js vs
        = setXtColumn (installXtColumns (setXtColumn M i w) js vs) j v
      rw [setXtColumn_comm j i (fun he => h (List.mem_cons.mpr (Or.inl he))) M v w]
      exact ih vs (setXtColumn M i w) j fun hm => h (List.mem_cons.mpr (Or.inr hm))

theorem installXtColumns_cancel (f : ℕ → List ℚ) (cols : List ℕ) :
    ∀ (vals : List (List ℚ)) (M : List (List ℚ)), cols.Nodup →
      installXtColumns (installXtColumns M cols vals) cols (cols.map f)
        = installXtColumns M cols (cols.map f) := by
  induction cols with
  | nil => intro vals M _; rfl
  | cons j js ih =>
    intro vals M h
    rcases vals with _ | ⟨v, vs⟩
    · rw [installXtColumns_vals_nil]
    · show installXtColumns (setXtColumn (installXtColumns (setXtColumn M j v) js vs) j (f j)) js (js.map f)
        = installXtColumns (setXtColumn M j (f j)) js (js.map f)
      rw [installXtColumns_set_comm v js vs M j (List.nodup_cons.mp h).1,
        setXtColumn_overwrite,
        ← installXtColumns_set_comm (f j) js vs M j (List.nodup_cons.mp h).1]
      exact ih vs (setXtColumn M j (f j)) (List.nodup_cons.mp h).2

theorem setXtColumn_id :
    ∀ (rows : List (List ℚ)) (j : ℕ) (v : List ℚ),
      (∀ r, (rows.getD r []).set j (v.getD r 0) = rows.getD r []) →
      setXtColumn rows j v = rows
  | [], _, _, _ => rfl
  | row :: rows, j, v, h => by
    have h0 := h 0
    simp only [List.getD_cons_zero] at h0
    have hv : v.headD 0 = v.getD 0 0 := by cases v <;> rfl
    show row.set j (v.headD 0) :: setXtColumn rows j v.tail = row :: rows
    rw [hv, h0]
    refine congrArg (row :: ·) (setXtColumn_id rows j v.tail fun r => ?_)
    rw [tail_getD]
    have hr := h (r + 1)
    simpa only [List.getD_cons_succ] using hr

theorem setXtColumn_transpose (X : List (List ℚ)) (numObservations j : ℕ) :
    setXtColumn (transposeCM X numObservations) j (X.getD j [])
      = transposeCM X numObservations := by
  refine setXtColumn_id _ j _ fun r => ?_
  by_cases hr : r < numObservations
  · rw [show (transposeCM X numObservations).getD r []
        = X.map (fun colValues => colValues.getD r 0) from getD_map_range _ _ _ _ hr]
    rw [← getD_map_col X r j]
    exact set_getD_self _ j 0
  · have hnone : (transposeCM X numObservations).getD r [] = [] := by
      rw [List.getD_eq_getElem?_getD, List.getElem?_eq_none]
      · rfl
      · simpa [transposeCM] using Nat.le_of_not_lt hr
    rw [hnone]
    rfl

theorem installXtColumns_restore_self (cols : List ℕ) :
    ∀ (M : List (List ℚ)) (f : ℕ → List ℚ),
      (∀ j ∈ cols, setXtColumn M j (f j) = M) →
      installXtColumns M cols (cols.map f) = M := by
  induction cols with
  | nil => intro M f _; rfl
  | cons j js ih =>
    intro M f h
    show installXtColumns (setXtColumn M j (f j)) js (js.map f) = M
    rw [h j (List.mem_cons_self j js)]
    exact ih M f fun i hi => h i (List.mem_cons_of_mem j hi)

theorem updateMemberships_structure (X cuts X' cuts' : List (List ℚ)) (t : PTree) :
    ∀ idxs idxs' : List ℕ,
      PTree.updateMemberships X cuts (PTree.updateMemberships X' cuts' t idxs') idxs
        = PTree.updateMemberships X cuts t idxs := by
  induction t with
  | leaf observationIndices =>
    intro idxs idxs'
    simp [PTree.updateMemberships]
  | internal j c l r ihl ihr =>
    intro idxs idxs'
    simp only [PTree.updateMemberships]
    rw [ihl, ihr]

theorem updateWithNewCovariates_twice (X cuts X' cuts' : List (List ℚ))
    (n n' : ℕ) (t : PTree) :
    PTree.updateWithNewCovariates X cuts n (PTree.updateWithNewCovariates X' cuts' n' t)
      = PTree.updateWithNewCovariates X cuts n t :=
  updateMemberships_structure X cuts X' cuts' t _ _

theorem updateTreesUntilInvalid_fst (X cuts : List (List ℚ)) (n : ℕ) :
    ∀ ts : List PTree,
      (updateTreesUntilInvalid X cuts n ts).1
        = ts.all fun t => (PTree.updateWithNewCovariates X cuts n t).isValid := by
  intro ts
  induction ts with
  | nil => rfl
  | cons t ts ih =>
    rcases hrec : updateTreesUntilInvalid X cuts n ts with ⟨b, rest, k⟩
    by_cases hv : (PTree.updateWithNewCovariates X cuts n t).isValid = true
    · simp [updateTreesUntilInvalid, hrec, hv, ← ih]
    · simp only [Bool.not_eq_true] at hv
      simp [updateTreesUntilInvalid, hrec, hv]

theorem updateTreesUntilInvalid_restore (X₀ cuts₀ X' cuts' : List (List ℚ)) (n : ℕ) :
    ∀ ts : List PTree, (∀ t ∈ ts, PTree.updateWithNewCovariates X₀ cuts₀ n t = t) →
      ((updateTreesUntilInvalid X' cuts' n ts).2.1.take
          (updateTreesUntilInvalid X' cuts' n ts).2.2).map
          (PTree.updateWithNewCovariates X₀ cuts₀ n)
        ++ (updateTreesUntilInvalid X' cuts' n ts).2.1.drop
          (updateTreesUntilInvalid X' cuts' n ts).2.2
      = ts := by
  intro ts
  induction ts with
  | nil => intro _; rfl
  | cons t ts ih =>
    intro h
    have ht : PTree.updateWithNewCovariates X₀ cuts₀ n t = t := h t (List.mem_cons_self t ts)
    have hts := ih fun t' ht' => h t' (List.mem_cons_of_mem t ht')
    rcases hrec : updateTreesUntilInvalid X' cuts' n ts with ⟨b, rest, k⟩
    rw [hrec] at hts
    by_cases hv : (PTree.updateWithNewCovariates X' cuts' n t).isValid = true
    · simp only [updateTreesUntilInvalid, hrec, hv, if_true]
      simp only [List.take_succ_cons, List.drop_succ_cons, List.map_cons, List.cons_append]
      rw [updateWithNewCovariates_twice, ht]
      exact congrArg (t :: ·) hts
    · simp only [Bool.not_eq_true] at hv
      simp only [updateTreesUntilInvalid, hrec, hv, Bool.false_eq_true, if_false]
      simp only [List.take_succ_cons, List.take_zero, List.drop_succ_cons, List.drop_zero,
        List.map_cons, List.map_nil, List.cons_append, List.nil_append]
      rw [updateWithNewCovariates_twice, ht]

/-- C1 (amended): given a consistent fit (cut points stable under
recomputation from the current predictor, transposed copy in sync, tree
memberships consistent with the current covariates), `updatePredictors`
returns `false` iff some existing tree becomes infeasible under the newly
installed columns, and on `false` the predictor matrix, transposed copy,
cut points and tree memberships are all rolled back: the state returned
equals the pre-call state.  (`setPredictor`, by contrast, performs no such
rollback — see the counterexample.) -/
theorem C1_updatePredictors (s : FitState) (columns : List ℕ)
    (newCols : List (List ℚ)) (b : Bool) (s' : FitState)
    (hcuts : setCutPoints s columns = Except.ok s)
    (hnodup : columns.Nodup)
    (hXt : s.Xt = transposeCM s.X s.numObservations)
    (htrees : ∀ t ∈ s.trees,
      PTree.updateWithNewCovariates s.X s.cutPoints s.numObservations t = t)
    (h : updatePredictors s columns newCols = Except.ok (b, s')) :
    (b = false ↔ ∃ t ∈ s.trees,
      (PTree.updateWithNewCovariates (installColumns s.X columns newCols) s.cutPoints
        s.numObservations t).isValid = false)
    ∧ (b = false → s' = s) := by
  rcases hrec : updateTreesUntilInvalid (installColumns s.X columns newCols) s.cutPoints
      s.numObservations s.trees with ⟨allValid, trees', touched⟩
  have hall := updateTreesUntilInvalid_fst (installColumns s.X columns newCols) s.cutPoints
    s.numObservations s.trees
  rw [hrec] at hall
  simp only [updatePredictors, hcuts, except_ok_bind, hrec] at h
  by_cases hv : allValid = true
  · rw [hv] at hall
    simp only [hv, if_true] at h
    injection h with h
    injection h with hb hs'
    subst hb
    constructor
    · constructor
      · intro habs
        exact absurd habs (by simp)
      · rintro ⟨t, htmem, hbad⟩
        have := List.all_eq_true.mp hall.symm t htmem
        rw [this] at hbad
        exact absurd hbad (by simp)
    · intro habs
      exact absurd habs (by simp)
  · simp only [Bool.not_eq_true] at hv
    rw [hv] at hall
    simp only [hv, Bool.false_eq_true, if_false] at h
    injection h with h
    injection h with hb hs'
    subst hb
    have hXrestore : installColumns (installColumns s.X columns newCols) columns
        (columns.map fun j => s.X.getD j []) = s.X := by
      rw [installColumns_cancel _ columns newCols s.X hnodup]
      exact installColumns_restore_self columns s.X
    have hXtrestore : installXtColumns (installXtColumns s.Xt columns newCols) columns
        (columns.map fun j => s.X.getD j []) = s.Xt := by
      rw [installXtColumns_cancel _ columns newCols s.Xt hnodup]
      refine installXtColumns_restore_self columns s.Xt _ fun j _ => ?_
      rw [hXt]
      exact setXtColumn_transpose s.X s.numObservations j
    have hcprestore : restoreCutPoints s.numCutsPerVariable s.cutPoints columns
        (columns.map fun j => (s.cutPoints.getD j []).take (s.numCutsPerVariable.getD j 0))
        = s.cutPoints := restoreCutPoints_self s.numCutsPerVariable columns s.cutPoints
    have htrestore := updateTreesUntilInvalid_restore s.X s.cutPoints
      (installColumns s.X columns newCols) s.cutPoints s.numObservations s.trees htrees
    rw [hrec] at htrestore
    simp only at htrestore
    refine ⟨⟨fun _ => ?_, fun _ => rfl⟩, fun _ => ?_⟩
    · have hnotall : ¬ ∀ t ∈ s.trees,
          (PTree.updateWithNewCovariates (installColumns s.X columns newCols) s.cutPoints
            s.numObservations t).isValid = true := by
        intro hforall
        have := List.all_eq_true.mpr hforall
        rw [← hall] at this
        exact absurd this (by simp)
      push_neg at hnotall
      obtain ⟨t, htmem, hbad⟩ := hnotall
      exact ⟨t, htmem, by simpa using hbad⟩
    · rw [← hs']
      rw [hXrestore, hXtrestore, hcprestore] at *
      rw [hcprestore, hXrestore]
      rw [htrestore]

theorem exampleFitC1_cutsStable : setCutPoints exampleFitC1 [0] = Except.ok exampleFitC1 := by
  have h1 : List.range 1 = [0] := rfl
  norm_num [setCutPoints, setCutPointsUniformly, exampleFitC1, h1, except_ok_bind]

theorem exampleFitC1_treeNew : PTree.updateWithNewCovariates [[0, 0]] [[1 / 2]] 2
    (PTree.internal 0 0 (PTree.leaf [0]) (PTree.leaf [1]))
    = PTree.internal 0 0 (PTree.leaf [0, 1]) (PTree.leaf []) := by
  norm_num [PTree.updateWithNewCovariates, PTree.updateMemberships, List.range_succ]

theorem exampleFitC1_treeOld : PTree.updateWithNewCovariates [[0, 1]] [[1 / 2]] 2
    (PTree.internal 0 0 (PTree.leaf [0, 1]) (PTree.leaf []))
    = PTree.internal 0 0 (PTree.leaf [0]) (PTree.leaf [1]) := by
  norm_num [PTree.updateWithNewCovariates, PTree.updateMemberships, List.range_succ]

theorem exampleFitC1_treeFixed : PTree.updateWithNewCovariates exampleFitC1.X
    exampleFitC1.cutPoints exampleFitC1.numObservations
    (PTree.internal 0 0 (PTree.leaf [0]) (PTree.leaf [1]))
    = PTree.internal 0 0 (PTree.leaf [0]) (PTree.leaf [1]) := by
  norm_num [PTree.updateWithNewCovariates, PTree.updateMemberships, List.range_succ,
    exampleFitC1]

theorem exampleFitC1_sweep : updateTreesUntilInvalid [[0, 0]] [[1 / 2]] 2
    [PTree.internal 0 0 (PTree.leaf [0]) (PTree.leaf [1])]
    = (false, [PTree.internal 0 0 (PTree.leaf [0, 1]) (PTree.leaf [])], 1) := by
  simp only [updateTreesUntilInvalid, exampleFitC1_treeNew]
  rfl

theorem exampleFitC1_update : updatePredictors exampleFitC1 [0] [[0, 0]]
    = Except.ok (false, exampleFitC1) := by
  simp only [updatePredictors, exampleFitC1_cutsStable, except_ok_bind]
  simp only [show installColumns exampleFitC1.X [0] [[0, 0]] = [[0, 0]] from rfl,
    show exampleFitC1.cutPoints = [[1 / 2]] from rfl,
    show exampleFitC1.numObservations = 2 from rfl,
    show exampleFitC1.trees = [PTree.internal 0 0 (PTree.leaf [0]) (PTree.leaf [1])] from rfl,
    exampleFitC1_sweep]
  rw [if_neg Bool.false_ne_true]
  rw [show installColumns [[(0 : ℚ), 0]] [0] (List.map (fun j => exampleFitC1.X.getD j []) [0])
      = [[0, 1]] from rfl]
  rw [show restoreCutPoints exampleFitC1.numCutsPerVariable [[(1 : ℚ) / 2]] [0]
      (List.map (fun j => List.take (exampleFitC1.numCutsPerVariable.getD j 0) ([[(1 : ℚ) / 2]].getD j []))
        [0])
      = [[1 / 2]] from rfl]
  simp only [List.take_succ_cons, List.take_zero, List.map_cons, List.map_nil,
    exampleFitC1_treeOld, List.drop_succ_cons, List.drop_zero, List.append_nil]
  rfl

/-- C1 witness: on the two-observation one-tree example fit, replacing the
single column by the constant column `[0, 0]` empties the tree's right
leaf; `updatePredictors` reports `false` and returns the fit in its
pre-call state. -/
theorem C1_updatePredictors_witness :
    ((false : Bool) = false ↔ ∃ t ∈ exampleFitC1.trees,
      (PTree.updateWithNewCovariates (installColumns exampleFitC1.X [0] [[0, 0]])
        exampleFitC1.cutPoints exampleFitC1.numObservations t).isValid = false)
    ∧ ((false : Bool) = false → exampleFitC1 = exampleFitC1) :=
  C1_updatePredictors exampleFitC1 [0] [[0, 0]] false exampleFitC1
    exampleFitC1_cutsStable (by decide) rfl
    (fun t ht => by
      simp only [show exampleFitC1.trees
          = [PTree.internal 0 0 (PTree.leaf [0]) (PTree.leaf [1])] from rfl,
        List.mem_singleton] at ht
      subst ht
      exact exampleFitC1_treeFixed)
    exampleFitC1_update

/-- C1 counterexample: on the same example fit, `setPredictor` with the
constant column `[0, 0]` also returns `false` (the tree is infeasible),
but it does NOT roll back: the predictor matrix afterwards is the new
column `[[0, 0]]`, not the pre-call `[[0, 1]]` — so the claim that on a
false return the fit is left in its pre-call state fails for
`setPredictor`. -/
theorem C1_counterexample :
    Except.map (fun p => (p.1, p.2.X)) (setPredictor exampleFitC1 [[0, 0]])
      = Except.ok (false, [[(0 : ℚ), 0]])
    ∧ exampleFitC1.X = [[(0 : ℚ), 1]]
    ∧ [[(0 : ℚ), 1]] ≠ [[(0 : ℚ), 0]] := by
  refine ⟨?_, rfl, by norm_num⟩
  simp only [setPredictor, show List.range exampleFitC1.X.length = [0] from rfl,
    exampleFitC1_cutsStable, except_ok_bind]
  simp only [show exampleFitC1.cutPoints = [[1 / 2]] from rfl,
    show exampleFitC1.numObservations = 2 from rfl,
    show exampleFitC1.trees = [PTree.internal 0 0 (PTree.leaf [0]) (PTree.leaf [1])] from rfl,
    exampleFitC1_sweep]
  rfl

end Dbarts
